import Mathlib

/-!
Verification development for the spotify-demand-forecast data generator
(`src/data_generation/generate_data.py`).

The random source is modelled as a stream of unit draws (rationals),
consumed positionally: `np.random.random()` takes the next unit draw,
and `np.random.uniform(a, b)` is `a + (b - a) * u` on the next unit
draw `u`, exactly as numpy computes it.  Real arithmetic is modelled
over `ℚ`.  Python's `int()` truncation toward zero is `pyInt`.  Dates
are modelled by their proleptic-Gregorian ordinal (Python's
`date.toordinal()`, day 1 = 0001-01-01, a Monday), so `weekday` and
the calendar month are derived arithmetically.
-/

/-- A deterministic model of the process-wide numpy random source:
an infinite stream of unit draws and a cursor position. -/
structure Rng where
  stream : ℕ → ℚ
  pos : ℕ

/-- Consume one draw. -/
def Rng.advance (r : Rng) : Rng := ⟨r.stream, r.pos + 1⟩

/-- Model of `np.random.random()`: the next unit draw. -/
def nprandom (r : Rng) : ℚ × Rng := (r.stream r.pos, r.advance)

/-- The value `a + (b - a) * u` that `np.random.uniform(a, b)` computes
from a unit draw `u`. -/
def unifV (a b u : ℚ) : ℚ := a + (b - a) * u

/-- Model of `np.random.uniform(a, b)`: consumes one unit draw. -/
def uniform (a b : ℚ) (r : Rng) : ℚ × Rng := (unifV a b (r.stream r.pos), r.advance)

/-- Python `int()` on a rational: truncation toward zero. -/
def pyInt (q : ℚ) : ℤ := if 0 ≤ q then ⌊q⌋ else ⌈q⌉

/-- A date, as Python's proleptic Gregorian ordinal (`date.toordinal()`):
day 1 is 0001-01-01. -/
abbrev Date := ℕ

/-- Python's `date.weekday()`: Monday = 0 .. Sunday = 6.
Ordinal 1 (0001-01-01) is a Monday, so `weekday d = (d - 1) % 7`,
written `(d + 6) % 7` to be total on `ℕ`. -/
def weekday (d : Date) : ℕ := (d + 6) % 7

/-- The calendar month (1..12) of an ordinal date, by the standard
civil-from-days conversion.  Python ordinal `o` is `o + 305` days after
0000-03-01. -/
def monthOf (o : Date) : ℕ :=
  let doe := (o + 305) % 146097
  let yoe := (doe - doe / 1460 + doe / 36524 - doe / 146096) / 365
  let doy := doe - (365 * yoe + yoe / 4 - yoe / 100)
  let mp := (5 * doy + 2) / 153
  if mp < 10 then mp + 3 else mp - 9

/-- Function `is_weekend` from the source: `date.weekday() in [4, 5]`. -/
def is_weekend (d : Date) : Bool := weekday d == 4 || weekday d == 5

/-- Function `is_summer_month` from the source: `date.month in [6, 7, 8]`. -/
def is_summer_month (d : Date) : Bool := monthOf d == 6 || monthOf d == 7 || monthOf d == 8

/-- The numeric parameters the source reads from the `config` module. -/
structure Config where
  BASE_STREAM_MULTIPLIER_MIN : ℚ
  BASE_STREAM_MULTIPLIER_MAX : ℚ
  WEEKEND_BOOST_MIN : ℚ
  WEEKEND_BOOST_MAX : ℚ
  VIRAL_SPIKE_PROBABILITY : ℚ
  VIRAL_SPIKE_MULTIPLIER_MIN : ℚ
  VIRAL_SPIKE_MULTIPLIER_MAX : ℚ
  SUMMER_BOOST : ℚ
  PLAYLIST_ADDS_DIVISOR : ℚ

/-- Function `calculate_streams(popularity, date, base_streams)` from the source:
optionally multiply by the weekend factor, always consume the viral
check draw and optionally multiply by the viral factor, optionally
multiply by `1 + SUMMER_BOOST`, then truncate once with `int()`.
The `popularity` parameter is accepted but unused, as in the source. -/
def calculate_streams (cfg : Config) (popularity : ℚ) (date : Date)
    (base_streams : ℚ) (r : Rng) : ℤ × Rng :=
  let w : ℚ × Rng :=
    if is_weekend date then
      let u := uniform cfg.WEEKEND_BOOST_MIN cfg.WEEKEND_BOOST_MAX r
      (base_streams * (1 + u.1), u.2)
    else (base_streams, r)
  let pv := nprandom w.2
  let v : ℚ × Rng :=
    if pv.1 < cfg.VIRAL_SPIKE_PROBABILITY then
      let m := uniform cfg.VIRAL_SPIKE_MULTIPLIER_MIN cfg.VIRAL_SPIKE_MULTIPLIER_MAX pv.2
      (w.1 * m.1, m.2)
    else (w.1, pv.2)
  let s : ℚ := if is_summer_month date then v.1 * (1 + cfg.SUMMER_BOOST) else v.1
  (pyInt s, v.2)

/-- The tail of `calculate_streams` (viral spike then summer boost then
truncation), stated as its own function so that theorems can say
exactly what the weekend branch adds in front of it. -/
def viral_and_summer (cfg : Config) (date : Date) (streams0 : ℚ) (r : Rng) : ℤ × Rng :=
  let pv := nprandom r
  let v : ℚ × Rng :=
    if pv.1 < cfg.VIRAL_SPIKE_PROBABILITY then
      let m := uniform cfg.VIRAL_SPIKE_MULTIPLIER_MIN cfg.VIRAL_SPIKE_MULTIPLIER_MAX pv.2
      (streams0 * m.1, m.2)
    else (streams0, pv.2)
  let s : ℚ := if is_summer_month date then v.1 * (1 + cfg.SUMMER_BOOST) else v.1
  (pyInt s, v.2)

/-- Function `calculate_playlist_adds(streams)` from the source:
`int((streams / PLAYLIST_ADDS_DIVISOR) * np.random.uniform(0.8, 1.2))`. -/
def calculate_playlist_adds (cfg : Config) (streams : ℤ) (r : Rng) : ℤ × Rng :=
  let base_adds : ℚ := (streams : ℚ) / cfg.PLAYLIST_ADDS_DIVISOR
  let variance := uniform (4/5) (6/5) r
  (pyInt (base_adds * variance.1), variance.2)

/-- A catalog row (`track_id`, `track_name`, `artists`, `popularity`). -/
structure Track where
  track_id : String
  track_name : String
  artists : String
  popularity : ℤ
deriving DecidableEq, Inhabited

/-- One output row of `generate_streaming_data`. -/
structure StreamingRecord where
  date : Date
  track_id : String
  track_name : String
  artists : String
  streams : ℤ
  region : String
  playlist_adds : ℤ
  popularity : ℤ
deriving DecidableEq, Inhabited

/-- The body of the innermost loop of `generate_streaming_data`:
draw the base multiplier, compute streams and playlist adds, and
assemble the record for one (day, track, region) triple. -/
def genTriple (cfg : Config) (track : Track) (date : Date) (region : String)
    (r : Rng) : StreamingRecord × Rng :=
  let b := uniform cfg.BASE_STREAM_MULTIPLIER_MIN cfg.BASE_STREAM_MULTIPLIER_MAX r
  let base_streams : ℚ := (track.popularity : ℚ) * b.1
  let s := calculate_streams cfg (track.popularity : ℚ) date base_streams b.2
  let p := calculate_playlist_adds cfg s.1 s.2
  ({ date := date, track_id := track.track_id, track_name := track.track_name,
     artists := track.artists, streams := s.1, region := region,
     playlist_adds := p.1, popularity := track.popularity }, p.2)

/-- The `for region in regions` loop. -/
def genRegions (cfg : Config) (track : Track) (date : Date) :
    List String → Rng → List StreamingRecord × Rng
  | [], r => ([], r)
  | region :: rest, r =>
    let x := genTriple cfg track date region r
    let xs := genRegions cfg track date rest x.2
    (x.1 :: xs.1, xs.2)

/-- The `for _, track in tracks_df.iterrows()` loop. -/
def genTracks (cfg : Config) (regions : List String) (date : Date) :
    List Track → Rng → List StreamingRecord × Rng
  | [], r => ([], r)
  | track :: rest, r =>
    let x := genRegions cfg track date regions r
    let xs := genTracks cfg regions date rest x.2
    (x.1 ++ xs.1, xs.2)

/-- The `for day_offset in range(num_days)` loop: each step simulates
one calendar day and advances the date by one. -/
def genDays (cfg : Config) (tracks : List Track) (regions : List String) :
    ℕ → Date → Rng → List StreamingRecord × Rng
  | 0, _, r => ([], r)
  | Nat.succ n, d, r =>
    let x := genTracks cfg regions d tracks r
    let xs := genDays cfg tracks regions n (d + 1) x.2
    (x.1 ++ xs.1, xs.2)

/-- Function `generate_streaming_data(tracks_df, num_days, start_date, regions)`
from the source, with the config and the random source explicit. -/
def generate_streaming_data (cfg : Config) (tracks_df : List Track)
    (num_days : ℕ) (start_date : Date) (regions : List String) (r : Rng) :
    List StreamingRecord × Rng :=
  genDays cfg tracks_df regions num_days start_date r

/-- The required catalog columns checked by `load_spotify_dataset`. -/
def required_columns : List String := ["track_id", "track_name", "artists", "popularity"]

/-- A loaded tabular file: its column names and its rows. -/
structure DataFrame where
  columns : List String
  rows : List (List String)
deriving DecidableEq

/-- The schema check of `load_spotify_dataset` (after a successful
read): collect every required column absent from the frame, raise one
error naming the whole list if it is non-empty, otherwise return the
frame unchanged. -/
def load_spotify_dataset (df : DataFrame) : Except (List String) DataFrame :=
  let missing_columns := required_columns.filter (fun c => decide (c ∉ df.columns))
  if missing_columns.isEmpty then Except.ok df else Except.error missing_columns

/-- The layered per-triple stream model as §4.2 of the spec words it:
base from popularity and the base-multiplier draw, then the weekend
factor when applicable, then the viral factor when the spike fires,
then `1 + summer_boost` in summer, truncated exactly once at the end.
`u0`, `uw`, `pv`, `uv` are the unit draws feeding each layer. -/
def specLayeredStreams (cfg : Config) (pop : ℚ) (d : Date)
    (u0 uw pv uv : ℚ) : ℤ :=
  let base := pop * unifV cfg.BASE_STREAM_MULTIPLIER_MIN cfg.BASE_STREAM_MULTIPLIER_MAX u0
  let s1 := if is_weekend d then
      base * (1 + unifV cfg.WEEKEND_BOOST_MIN cfg.WEEKEND_BOOST_MAX uw) else base
  let s2 := if pv < cfg.VIRAL_SPIKE_PROBABILITY then
      s1 * unifV cfg.VIRAL_SPIKE_MULTIPLIER_MIN cfg.VIRAL_SPIKE_MULTIPLIER_MAX uv else s1
  let s3 := if is_summer_month d then s2 * (1 + cfg.SUMMER_BOOST) else s2
  pyInt s3

/-- Modelled from the spec: `SimulationConfig` (§3) bundles the horizon,
start date, regions and model parameters.  The repository's `config`
module is imported by the source but is not under `src/`, so its shape
is taken from the spec's words. -/
structure SimulationConfig where
  horizon_days : ℕ
  start_date : Date
  regions : List String
  params : Config

/-- Modelled from the spec: `ConfigError` (§7), invalid simulation
parameters. -/
inductive ConfigError where
  | invalid : String → ConfigError
deriving DecidableEq

/-- Modelled from the spec: construction of a `SimulationConfig`
validates its invariants (§3): horizon length ≥ 1, region set
non-empty, every multiplier range with min ≤ max; a violation is
rejected with `ConfigError` before any per-iteration work. -/
def mkSimulationConfig (horizon_days : ℕ) (start_date : Date)
    (regions : List String) (p : Config) : Except ConfigError SimulationConfig :=
  if horizon_days < 1 then Except.error (ConfigError.invalid "horizon length must be at least 1")
  else if regions.isEmpty then Except.error (ConfigError.invalid "region set must be non-empty")
  else if p.BASE_STREAM_MULTIPLIER_MAX < p.BASE_STREAM_MULTIPLIER_MIN then
    Except.error (ConfigError.invalid "base multiplier range must have min at most max")
  else if p.WEEKEND_BOOST_MAX < p.WEEKEND_BOOST_MIN then
    Except.error (ConfigError.invalid "weekend boost range must have min at most max")
  else if p.VIRAL_SPIKE_MULTIPLIER_MAX < p.VIRAL_SPIKE_MULTIPLIER_MIN then
    Except.error (ConfigError.invalid "viral multiplier range must have min at most max")
  else Except.ok ⟨horizon_days, start_date, regions, p⟩

/-- A stream of unit draws: every value in `[0, 1]`. -/
def UnitF (f : ℕ → ℚ) : Prop := ∀ k, 0 ≤ f k ∧ f k ≤ 1

/-- The precondition of the non-negativity claim: all multiplier-range
endpoints, the summer boost and the viral parameters non-negative, and
a positive playlist-adds divisor. -/
def ConfigNonneg (cfg : Config) : Prop :=
  0 ≤ cfg.BASE_STREAM_MULTIPLIER_MIN ∧ 0 ≤ cfg.BASE_STREAM_MULTIPLIER_MAX ∧
  0 ≤ cfg.WEEKEND_BOOST_MIN ∧ 0 ≤ cfg.WEEKEND_BOOST_MAX ∧
  0 ≤ cfg.VIRAL_SPIKE_PROBABILITY ∧
  0 ≤ cfg.VIRAL_SPIKE_MULTIPLIER_MIN ∧ 0 ≤ cfg.VIRAL_SPIKE_MULTIPLIER_MAX ∧
  0 ≤ cfg.SUMMER_BOOST ∧ 0 < cfg.PLAYLIST_ADDS_DIVISOR

/-- Concrete configuration used by the witness theorems. -/
def cfgW : Config :=
  { BASE_STREAM_MULTIPLIER_MIN := 10, BASE_STREAM_MULTIPLIER_MAX := 50
    WEEKEND_BOOST_MIN := 1/5, WEEKEND_BOOST_MAX := 1/2
    VIRAL_SPIKE_PROBABILITY := 1/100
    VIRAL_SPIKE_MULTIPLIER_MIN := 2, VIRAL_SPIKE_MULTIPLIER_MAX := 5
    SUMMER_BOOST := 3/10, PLAYLIST_ADDS_DIVISOR := 100 }

/-- Concrete random source used by the witness theorems: every unit
draw is `1/2`. -/
def rngW : Rng := ⟨fun _ => 1/2, 0⟩

/-- Concrete track used by the witness theorems. -/
def trackW : Track :=
  { track_id := "t1", track_name := "Song One", artists := "Artist A", popularity := 50 }

/-- Concrete zero-popularity track used by the witness theorems. -/
def trackZ : Track :=
  { track_id := "t0", track_name := "Song Zero", artists := "Artist Z", popularity := 0 }

/-- Concrete catalog frame missing `artists` and `popularity`, used by
the witness theorems. -/
def dfW : DataFrame := ⟨["track_id", "track_name"], [["a", "b"]]⟩

theorem genRegions_length (cfg : Config) (t : Track) (d : Date) :
    ∀ (regions : List String) (r : Rng),
      (genRegions cfg t d regions r).1.length = regions.length := by
  intro regions
  induction regions with
  | nil => intro r; rfl
  | cons a rest ih => intro r; simp [genRegions, ih]

theorem genTracks_length (cfg : Config) (regions : List String) (d : Date) :
    ∀ (tracks : List Track) (r : Rng),
      (genTracks cfg regions d tracks r).1.length = tracks.length * regions.length := by
  intro tracks
  induction tracks with
  | nil => intro r; simp [genTracks]
  | cons t rest ih =>
    intro r
    simp [genTracks, genRegions_length, ih, Nat.succ_mul, Nat.add_comm]

theorem genDays_length (cfg : Config) (tracks : List Track) (regions : List String) :
    ∀ (n : ℕ) (d : Date) (r : Rng),
      (genDays cfg tracks regions n d r).1.length
        = n * (tracks.length * regions.length) := by
  intro n
  induction n with
  | zero => intro d r; simp [genDays]
  | succ m ih =>
    intro d r
    simp [genDays, genTracks_length, ih, Nat.succ_mul, Nat.add_comm]

/-- C3: the simulator's output has exactly
`horizon_days × track_count × region_count` records. -/
theorem c3_record_count (cfg : Config) (tracks : List Track) (n : ℕ)
    (start : Date) (regions : List String) (r : Rng) :
    (generate_streaming_data cfg tracks n start regions r).1.length
      = n * tracks.length * regions.length := by
  simp [generate_streaming_data, genDays_length, Nat.mul_assoc]

/-- C10: `calculate_streams` ignores its `popularity` argument: two runs
differing only in popularity, with the same date, base value and random
state, return identical results. -/
theorem c10_popularity_ignored (cfg : Config) (p1 p2 : ℚ) (d : Date)
    (base : ℚ) (r : Rng) :
    calculate_streams cfg p1 d base r = calculate_streams cfg p2 d base r := rfl

/-- C1: each triple's stream count is the single truncation of the
layered product taken in the fixed order (base, weekend, viral, summer),
with the unit draws consumed positionally: base at the cursor, weekend
next (when the day is a weekend), then the viral check, then the viral
multiplier. -/
theorem c1_stream_layering (cfg : Config) (t : Track) (d : Date)
    (reg : String) (r : Rng) :
    (genTriple cfg t d reg r).1.streams =
      specLayeredStreams cfg (t.popularity : ℚ) d
        (r.stream r.pos)
        (r.stream (r.pos + 1))
        (r.stream (r.pos + 1 + (if is_weekend d then 1 else 0)))
        (r.stream (r.pos + 2 + (if is_weekend d then 1 else 0))) := by
  by_cases hw : is_weekend d
  · simp only [genTriple, calculate_streams, specLayeredStreams, uniform,
      nprandom, Rng.advance, unifV, hw, if_true]
    by_cases hv : r.stream (r.pos + 1 + 1) < cfg.VIRAL_SPIKE_PROBABILITY
    · simp [hv]
    · simp [hv]
  · simp only [genTriple, calculate_streams, specLayeredStreams, uniform,
      nprandom, Rng.advance, unifV, hw, if_false]
    by_cases hv : r.stream (r.pos + 1) < cfg.VIRAL_SPIKE_PROBABILITY
    · simp [hv]
    · simp [hv]

theorem genRegions_getD (cfg : Config) (t : Track) (d : Date) :
    ∀ (regions : List String) (r : Rng) (j : ℕ), j < regions.length →
      ((genRegions cfg t d regions r).1.getD j default).date = d ∧
      ((genRegions cfg t d regions r).1.getD j default).track_id = t.track_id ∧
      ((genRegions cfg t d regions r).1.getD j default).track_name = t.track_name ∧
      ((genRegions cfg t d regions r).1.getD j default).region = regions.getD j "" := by
  intro regions
  induction regions with
  | nil => intro r j hj; simp at hj
  | cons a rest ih =>
    intro r j hj
    cases j with
    | zero => exact ⟨rfl, rfl, rfl, rfl⟩
    | succ m =>
      have hm : m < rest.length := by simpa using hj
      exact ih (genTriple cfg t d a r).2 m hm

theorem genTracks_getD (cfg : Config) (regions : List String) (d : Date) :
    ∀ (tracks : List Track) (r : Rng) (i j : ℕ),
      i < tracks.length → j < regions.length →
      ((genTracks cfg regions d tracks r).1.getD (i * regions.length + j) default).date = d ∧
      ((genTracks cfg regions d tracks r).1.getD (i * regions.length + j) default).track_id
        = (tracks.getD i default).track_id ∧
      ((genTracks cfg regions d tracks r).1.getD (i * regions.length + j) default).track_name
        = (tracks.getD i default).track_name ∧
      ((genTracks cfg regions d tracks r).1.getD (i * regions.length + j) default).region
        = regions.getD j "" := by
  intro tracks
  induction tracks with
  | nil => intro r i j hi hj; simp at hi
  | cons t rest ih =>
    intro r i j hi hj
    have hR : ((genRegions cfg t d regions r).1).length = regions.length :=
      genRegions_length cfg t d regions r
    cases i with
    | zero =>
      simp only [genTracks, Nat.zero_mul, Nat.zero_add]
      have hlt : j < ((genRegions cfg t d regions r).1).length := by rw [hR]; exact hj
      rw [List.getD_append _ _ _ _ hlt]
      exact genRegions_getD cfg t d regions r j hj
    | succ m =>
      have hm : m < rest.length := by simpa using hi
      simp only [genTracks]
      have hge : ((genRegions cfg t d regions r).1).length
          ≤ (m + 1) * regions.length + j := by
        rw [hR]
        have h2 : (m + 1) * regions.length = m * regions.length + regions.length :=
          Nat.succ_mul m regions.length
        omega
      rw [List.getD_append_right _ _ _ _ hge, hR]
      have hidx : (m + 1) * regions.length + j - regions.length
          = m * regions.length + j := by
        have h2 : (m + 1) * regions.length = m * regions.length + regions.length :=
          Nat.succ_mul m regions.length
        omega
      rw [hidx]
      exact ih (genRegions cfg t d regions r).2 m j hm hj

theorem genDays_getD (cfg : Config) (tracks : List Track) (regions : List String) :
    ∀ (n : ℕ) (d : Date) (r : Rng) (k i j : ℕ),
      k < n → i < tracks.length → j < regions.length →
      ((genDays cfg tracks regions n d r).1.getD
          (k * (tracks.length * regions.length) + i * regions.length + j) default).date
        = d + k ∧
      ((genDays cfg tracks regions n d r).1.getD
          (k * (tracks.length * regions.length) + i * regions.length + j) default).track_id
        = (tracks.getD i default).track_id ∧
      ((genDays cfg tracks regions n d r).1.getD
          (k * (tracks.length * regions.length) + i * regions.length + j) default).track_name
        = (tracks.getD i default).track_name ∧
      ((genDays cfg tracks regions n d r).1.getD
          (k * (tracks.length * regions.length) + i * regions.length + j) default).region
        = regions.getD j "" := by
  intro n
  induction n with
  | zero => intro d r k i j hk hi hj; simp at hk
  | succ m ih =>
    intro d r k i j hk hi hj
    have hT : ((genTracks cfg regions d tracks r).1).length
        = tracks.length * regions.length := genTracks_length cfg regions d tracks r
    cases k with
    | zero =>
      simp only [genDays, Nat.zero_mul, Nat.zero_add]
      have hlt : i * regions.length + j < ((genTracks cfg regions d tracks r).1).length := by
        rw [hT]
        have h1 : (i + 1) * regions.length ≤ tracks.length * regions.length :=
          Nat.mul_le_mul_right regions.length (Nat.succ_le_of_lt hi)
        have h2 : (i + 1) * regions.length = i * regions.length + regions.length :=
          Nat.succ_mul i regions.length
        omega
      rw [List.getD_append _ _ _ _ hlt]
      exact genTracks_getD cfg regions d tracks r i j hi hj
    | succ k2 =>
      have hk2 : k2 < m := by omega
      simp only [genDays]
      have hge : ((genTracks cfg regions d tracks r).1).length
          ≤ (k2 + 1) * (tracks.length * regions.length) + i * regions.length + j := by
        rw [hT]
        have h2 : (k2 + 1) * (tracks.length * regions.length)
            = k2 * (tracks.length * regions.length) + tracks.length * regions.length :=
          Nat.succ_mul k2 (tracks.length * regions.length)
        omega
      rw [List.getD_append_right _ _ _ _ hge, hT]
      have hidx : (k2 + 1) * (tracks.length * regions.length) + i * regions.length + j
            - tracks.length * regions.length
          = k2 * (tracks.length * regions.length) + i * regions.length + j := by
        have h2 : (k2 + 1) * (tracks.length * regions.length)
            = k2 * (tracks.length * regions.length) + tracks.length * regions.length :=
          Nat.succ_mul k2 (tracks.length * regions.length)
        omega
      rw [hidx]
      have hdate : d + (k2 + 1) = (d + 1) + k2 := by ring
      rw [hdate]
      exact ih (d + 1) (genTracks cfg regions d tracks r).2 k2 i j hk2 hi hj

/-- C4: the output is ordered day-major, then track in catalog order,
then region in configured order: the record at flat index
`k·(T·R) + i·R + j` belongs to day offset `k` (with date
`start_date + k`), track `i` and region `j`. -/
theorem c4_ordering (cfg : Config) (tracks : List Track) (n : ℕ) (start : Date)
    (regions : List String) (r : Rng) (k i j : ℕ)
    (hk : k < n) (hi : i < tracks.length) (hj : j < regions.length) :
    ((generate_streaming_data cfg tracks n start regions r).1.getD
        (k * (tracks.length * regions.length) + i * regions.length + j) default).date
      = start + k ∧
    ((generate_streaming_data cfg tracks n start regions r).1.getD
        (k * (tracks.length * regions.length) + i * regions.length + j) default).track_id
      = (tracks.getD i default).track_id ∧
    ((generate_streaming_data cfg tracks n start regions r).1.getD
        (k * (tracks.length * regions.length) + i * regions.length + j) default).track_name
      = (tracks.getD i default).track_name ∧
    ((generate_streaming_data cfg tracks n start regions r).1.getD
        (k * (tracks.length * regions.length) + i * regions.length + j) default).region
      = regions.getD j "" :=
  genDays_getD cfg tracks regions n start r k i j hk hi hj

/-- Witness for C4 at a concrete run: two tracks, two regions, two days
starting 2024-01-01 (ordinal 738886); the record at flat index
`1·(2·2) + 1·2 + 0 = 6` is day 2, second track, first region. -/
theorem c4_ordering_witness :
    ((generate_streaming_data cfgW [trackW, trackZ] 2 738886 ["US", "EU"] rngW).1.getD
        (1 * (2 * 2) + 1 * 2 + 0) default).date = 738887 ∧
    ((generate_streaming_data cfgW [trackW, trackZ] 2 738886 ["US", "EU"] rngW).1.getD
        (1 * (2 * 2) + 1 * 2 + 0) default).track_id = "t0" ∧
    ((generate_streaming_data cfgW [trackW, trackZ] 2 738886 ["US", "EU"] rngW).1.getD
        (1 * (2 * 2) + 1 * 2 + 0) default).track_name = "Song Zero" ∧
    ((generate_streaming_data cfgW [trackW, trackZ] 2 738886 ["US", "EU"] rngW).1.getD
        (1 * (2 * 2) + 1 * 2 + 0) default).region = "US" :=
  c4_ordering cfgW [trackW, trackZ] 2 738886 ["US", "EU"] rngW 1 1 0
    (by decide) (by decide) (by decide)

/-- C5: the weekend boost — a factor `1 + U(weekend_boost_min,
weekend_boost_max)` — is applied iff the day's weekday index under
Monday = 0 is 4 or 5 (Friday or Saturday, not the conventional
Saturday/Sunday); on all other weekdays the factor is absent and the
weekend draw is not consumed (the tail of the computation receives the
untouched random state).  Ordinals 739051/739052/739053 are
2024-06-14 (Friday), 2024-06-15 (Saturday), 2024-06-16 (Sunday). -/
theorem c5_weekend_boost (cfg : Config) (pop : ℚ) (d : Date) (base : ℚ) (r : Rng) :
    (is_weekend d = true ↔ ((d + 6) % 7 = 4 ∨ (d + 6) % 7 = 5)) ∧
    (is_weekend d = true →
      calculate_streams cfg pop d base r =
        viral_and_summer cfg d
          (base * (1 + unifV cfg.WEEKEND_BOOST_MIN cfg.WEEKEND_BOOST_MAX (r.stream r.pos)))
          r.advance) ∧
    (is_weekend d = false →
      calculate_streams cfg pop d base r = viral_and_summer cfg d base r) ∧
    is_weekend 739051 = true ∧ is_weekend 739052 = true ∧ is_weekend 739053 = false := by
  refine ⟨?_, ?_, ?_, by decide, by decide, by decide⟩
  · simp [is_weekend, weekday]
  · intro hw
    simp [calculate_streams, viral_and_summer, uniform, hw]
  · intro hw
    simp [calculate_streams, viral_and_summer, hw]

/-- Witness for C5 on Sunday 2024-06-16 (ordinal 739053): no weekend
factor, random state passed through untouched. -/
theorem c5_weekend_boost_witness :
    calculate_streams cfgW 50 739053 600 rngW = viral_and_summer cfgW 739053 600 rngW :=
  (c5_weekend_boost cfgW 50 739053 600 rngW).2.2.1 (by decide)

/-- C2: `calculate_playlist_adds` always consumes exactly one fresh
uniform draw over [0.8, 1.2] (also when `streams = 0`), and for a
non-negative stream count, positive divisor and non-negative unit draw
its result is `⌊(streams / playlist_adds_divisor) * v⌋` for that
draw `v`. -/
theorem c2_playlist_adds (cfg : Config) (s : ℤ) (r : Rng) :
    (calculate_playlist_adds cfg s r).2 = r.advance ∧
    (0 ≤ s → 0 < cfg.PLAYLIST_ADDS_DIVISOR → 0 ≤ r.stream r.pos →
      (calculate_playlist_adds cfg s r).1 =
        ⌊(s : ℚ) / cfg.PLAYLIST_ADDS_DIVISOR * unifV (4/5) (6/5) (r.stream r.pos)⌋) := by
  constructor
  · rfl
  · intro hs hd hu
    have hv : 0 ≤ unifV (4/5) (6/5) (r.stream r.pos) := by
      unfold unifV; nlinarith
    have hq : 0 ≤ (s : ℚ) / cfg.PLAYLIST_ADDS_DIVISOR * unifV (4/5) (6/5) (r.stream r.pos) := by
      apply mul_nonneg
      · apply div_nonneg
        · exact_mod_cast hs
        · exact le_of_lt hd
      · exact hv
    simp [calculate_playlist_adds, uniform, pyInt, hq]

/-- Witness for C2 at streams = 0: the draw is still consumed and the
result is the floor formula. -/
theorem c2_playlist_adds_witness :
    (calculate_playlist_adds cfgW 0 rngW).2 = rngW.advance ∧
    (calculate_playlist_adds cfgW 0 rngW).1 =
      ⌊((0 : ℤ) : ℚ) / cfgW.PLAYLIST_ADDS_DIVISOR * unifV (4/5) (6/5) (rngW.stream rngW.pos)⌋ :=
  ⟨(c2_playlist_adds cfgW 0 rngW).1,
   (c2_playlist_adds cfgW 0 rngW).2 (by decide) (by norm_num [cfgW]) (by norm_num [rngW])⟩

/-- C7: with every required column present the loader returns the frame
unchanged (all rows, in source order); with any required column absent
it fails once, with an error naming exactly the missing required
columns, all together. -/
theorem c7_schema_check (df : DataFrame) :
    ((∀ c ∈ required_columns, c ∈ df.columns) →
      load_spotify_dataset df = Except.ok df) ∧
    ((∃ c ∈ required_columns, c ∉ df.columns) →
      ∃ missing, load_spotify_dataset df = Except.error missing ∧
        ∀ c, c ∈ missing ↔ (c ∈ required_columns ∧ c ∉ df.columns)) := by
  constructor
  · intro h
    have hnil : required_columns.filter (fun c => decide (c ∉ df.columns)) = [] := by
      rw [List.filter_eq_nil_iff]
      intro c hc
      simp [h c hc]
    unfold load_spotify_dataset
    rw [hnil]
    rfl
  · rintro ⟨c, hc, hnc⟩
    refine ⟨required_columns.filter (fun c => decide (c ∉ df.columns)), ?_, ?_⟩
    · have hmem : c ∈ required_columns.filter (fun c => decide (c ∉ df.columns)) := by
        simp [List.mem_filter, hc, hnc]
      have hne : required_columns.filter (fun c => decide (c ∉ df.columns)) ≠ [] := by
        intro he
        rw [he] at hmem
        simp at hmem
      unfold load_spotify_dataset
      rw [if_neg (by simpa [List.isEmpty_iff] using hne)]
    · intro x
      simp [List.mem_filter]

/-- Witness for C7 on a frame missing `artists` and `popularity`:
the single error names exactly those columns. -/
theorem c7_schema_check_witness :
    ∃ missing, load_spotify_dataset dfW = Except.error missing ∧
      ∀ c, c ∈ missing ↔ (c ∈ required_columns ∧ c ∉ dfW.columns) :=
  (c7_schema_check dfW).2 ⟨"artists", by decide, by decide⟩

theorem unifV_nonneg (a b u : ℚ) (ha : 0 ≤ a) (hb : 0 ≤ b) (h0 : 0 ≤ u) (h1 : u ≤ 1) :
    0 ≤ unifV a b u := by
  unfold unifV
  nlinarith

theorem pyInt_nonneg (q : ℚ) (h : 0 ≤ q) : 0 ≤ pyInt q := by
  unfold pyInt
  rw [if_pos h]
  exact Int.floor_nonneg.mpr h

theorem calculate_streams_nonneg (cfg : Config) (pop : ℚ) (d : Date) (base : ℚ)
    (r : Rng) (hcfg : ConfigNonneg cfg) (hr : UnitF r.stream) (hbase : 0 ≤ base) :
    0 ≤ (calculate_streams cfg pop d base r).1 := by
  obtain ⟨h1, h2, h3, h4, h5, h6, h7, h8, h9⟩ := hcfg
  have hwfac : 0 ≤ 1 + unifV cfg.WEEKEND_BOOST_MIN cfg.WEEKEND_BOOST_MAX (r.stream r.pos) :=
    add_nonneg zero_le_one (unifV_nonneg _ _ _ h3 h4 (hr _).1 (hr _).2)
  have hsfac : 0 ≤ 1 + cfg.SUMMER_BOOST := add_nonneg zero_le_one h8
  have hv1 : ∀ k, 0 ≤ unifV cfg.VIRAL_SPIKE_MULTIPLIER_MIN
      cfg.VIRAL_SPIKE_MULTIPLIER_MAX (r.stream k) :=
    fun k => unifV_nonneg _ _ _ h6 h7 (hr k).1 (hr k).2
  by_cases hw : is_weekend d
  · simp only [calculate_streams, uniform, nprandom, Rng.advance, hw, if_true]
    by_cases hv : r.stream (r.pos + 1) < cfg.VIRAL_SPIKE_PROBABILITY
    · by_cases hsm : is_summer_month d
      · simp [hv, hsm]
        exact pyInt_nonneg _ (mul_nonneg (mul_nonneg (mul_nonneg hbase hwfac) (hv1 _)) hsfac)
      · simp [hv, hsm]
        exact pyInt_nonneg _ (mul_nonneg (mul_nonneg hbase hwfac) (hv1 _))
    · by_cases hsm : is_summer_month d
      · simp [hv, hsm]
        exact pyInt_nonneg _ (mul_nonneg (mul_nonneg hbase hwfac) hsfac)
      · simp [hv, hsm]
        exact pyInt_nonneg _ (mul_nonneg hbase hwfac)
  · simp only [calculate_streams, uniform, nprandom, Rng.advance, hw, Bool.false_eq_true,
      if_false]
    by_cases hv : r.stream r.pos < cfg.VIRAL_SPIKE_PROBABILITY
    · by_cases hsm : is_summer_month d
      · simp [hv, hsm]
        exact pyInt_nonneg _ (mul_nonneg (mul_nonneg hbase (hv1 _)) hsfac)
      · simp [hv, hsm]
        exact pyInt_nonneg _ (mul_nonneg hbase (hv1 _))
    · by_cases hsm : is_summer_month d
      · simp [hv, hsm]
        exact pyInt_nonneg _ (mul_nonneg hbase hsfac)
      · simp [hv, hsm]
        exact pyInt_nonneg _ hbase

theorem calculate_playlist_adds_nonneg (cfg : Config) (s : ℤ) (r : Rng)
    (hd : 0 < cfg.PLAYLIST_ADDS_DIVISOR) (hr : UnitF r.stream) (hs : 0 ≤ s) :
    0 ≤ (calculate_playlist_adds cfg s r).1 := by
  simp only [calculate_playlist_adds, uniform]
  apply pyInt_nonneg
  apply mul_nonneg
  · exact div_nonneg (by exact_mod_cast hs) (le_of_lt hd)
  · exact unifV_nonneg _ _ _ (by norm_num) (by norm_num) (hr _).1 (hr _).2

theorem calculate_streams_stream (cfg : Config) (pop : ℚ) (d : Date) (base : ℚ)
    (r : Rng) : ((calculate_streams cfg pop d base r).2).stream = r.stream := by
  simp only [calculate_streams, uniform, nprandom, Rng.advance]
  split_ifs <;> rfl

theorem genTriple_stream (cfg : Config) (t : Track) (d : Date) (reg : String)
    (r : Rng) : ((genTriple cfg t d reg r).2).stream = r.stream := by
  simp only [genTriple, calculate_playlist_adds, uniform, Rng.advance]
  exact calculate_streams_stream cfg _ d _ _

theorem genTriple_nonneg (cfg : Config) (t : Track) (d : Date) (reg : String)
    (r : Rng) (hcfg : ConfigNonneg cfg) (hr : UnitF r.stream)
    (hpop : 0 ≤ t.popularity) :
    0 ≤ (genTriple cfg t d reg r).1.streams ∧
    0 ≤ (genTriple cfg t d reg r).1.playlist_adds := by
  have hb : 0 ≤ (t.popularity : ℚ) *
      (uniform cfg.BASE_STREAM_MULTIPLIER_MIN cfg.BASE_STREAM_MULTIPLIER_MAX r).1 := by
    apply mul_nonneg
    · exact_mod_cast hpop
    · exact unifV_nonneg _ _ _ hcfg.1 hcfg.2.1 (hr _).1 (hr _).2
  have hs : 0 ≤ (calculate_streams cfg (t.popularity : ℚ) d
      ((t.popularity : ℚ) *
        (uniform cfg.BASE_STREAM_MULTIPLIER_MIN cfg.BASE_STREAM_MULTIPLIER_MAX r).1)
      (uniform cfg.BASE_STREAM_MULTIPLIER_MIN cfg.BASE_STREAM_MULTIPLIER_MAX r).2).1 :=
    calculate_streams_nonneg cfg _ d _ _ hcfg hr hb
  have hr2 : UnitF ((calculate_streams cfg (t.popularity : ℚ) d
      ((t.popularity : ℚ) *
        (uniform cfg.BASE_STREAM_MULTIPLIER_MIN cfg.BASE_STREAM_MULTIPLIER_MAX r).1)
      (uniform cfg.BASE_STREAM_MULTIPLIER_MIN cfg.BASE_STREAM_MULTIPLIER_MAX r).2).2).stream := by
    rw [calculate_streams_stream]
    exact hr
  exact ⟨hs, calculate_playlist_adds_nonneg cfg _ _ hcfg.2.2.2.2.2.2.2.2 hr2 hs⟩

theorem genRegions_stream (cfg : Config) (t : Track) (d : Date) :
    ∀ (regions : List String) (r : Rng),
      ((genRegions cfg t d regions r).2).stream = r.stream := by
  intro regions
  induction regions with
  | nil => intro r; rfl
  | cons a rest ih =>
    intro r
    show ((genRegions cfg t d rest (genTriple cfg t d a r).2).2).stream = r.stream
    rw [ih, genTriple_stream]

theorem genTracks_stream (cfg : Config) (regions : List String) (d : Date) :
    ∀ (tracks : List Track) (r : Rng),
      ((genTracks cfg regions d tracks r).2).stream = r.stream := by
  intro tracks
  induction tracks with
  | nil => intro r; rfl
  | cons t rest ih =>
    intro r
    show ((genTracks cfg regions d rest (genRegions cfg t d regions r).2).2).stream
      = r.stream
    rw [ih, genRegions_stream]

theorem genRegions_nonneg (cfg : Config) (t : Track) (d : Date)
    (hcfg : ConfigNonneg cfg) (hpop : 0 ≤ t.popularity) :
    ∀ (regions : List String) (r : Rng), UnitF r.stream →
      ∀ rec ∈ (genRegions cfg t d regions r).1,
        0 ≤ rec.streams ∧ 0 ≤ rec.playlist_adds := by
  intro regions
  induction regions with
  | nil => intro r hr rec hrec; simp [genRegions] at hrec
  | cons a rest ih =>
    intro r hr rec hrec
    simp only [genRegions, List.mem_cons] at hrec
    rcases hrec with h | h
    · subst h
      exact genTriple_nonneg cfg t d a r hcfg hr hpop
    · have hr2 : UnitF ((genTriple cfg t d a r).2).stream := by
        rw [genTriple_stream]; exact hr
      exact ih (genTriple cfg t d a r).2 hr2 rec h

theorem genTracks_nonneg (cfg : Config) (regions : List String) (d : Date)
    (hcfg : ConfigNonneg cfg) :
    ∀ (tracks : List Track), (∀ t ∈ tracks, 0 ≤ t.popularity) →
      ∀ (r : Rng), UnitF r.stream →
        ∀ rec ∈ (genTracks cfg regions d tracks r).1,
          0 ≤ rec.streams ∧ 0 ≤ rec.playlist_adds := by
  intro tracks
  induction tracks with
  | nil => intro _ r hr rec hrec; simp [genTracks] at hrec
  | cons t rest ih =>
    intro hpop r hr rec hrec
    simp only [genTracks, List.mem_append] at hrec
    rcases hrec with h | h
    · exact genRegions_nonneg cfg t d hcfg (hpop t (by simp)) regions r hr rec h
    · have hr2 : UnitF ((genRegions cfg t d regions r).2).stream := by
        rw [genRegions_stream]; exact hr
      exact ih (fun x hx => hpop x (by simp [hx])) (genRegions cfg t d regions r).2 hr2 rec h

theorem genDays_nonneg (cfg : Config) (tracks : List Track) (regions : List String)
    (hcfg : ConfigNonneg cfg) (hpop : ∀ t ∈ tracks, 0 ≤ t.popularity) :
    ∀ (n : ℕ) (d : Date) (r : Rng), UnitF r.stream →
      ∀ rec ∈ (genDays cfg tracks regions n d r).1,
        0 ≤ rec.streams ∧ 0 ≤ rec.playlist_adds := by
  intro n
  induction n with
  | zero => intro d r hr rec hrec; simp [genDays] at hrec
  | succ m ih =>
    intro d r hr rec hrec
    simp only [genDays, List.mem_append] at hrec
    rcases hrec with h | h
    · exact genTracks_nonneg cfg regions d hcfg tracks hpop r hr rec h
    · have hr2 : UnitF ((genTracks cfg regions d tracks r).2).stream := by
        rw [genTracks_stream]; exact hr
      exact ih (d + 1) (genTracks cfg regions d tracks r).2 hr2 rec h

/-- C6: with every popularity in [0, 100], all range endpoints, the
summer boost and the viral parameters non-negative, a positive divisor
and unit draws, every generated record has non-negative integer
streams and playlist adds. -/
theorem c6_nonneg (cfg : Config) (tracks : List Track) (n : ℕ) (start : Date)
    (regions : List String) (r : Rng)
    (hcfg : ConfigNonneg cfg) (hr : UnitF r.stream)
    (hpop : ∀ t ∈ tracks, 0 ≤ t.popularity ∧ t.popularity ≤ 100) :
    ∀ rec ∈ (generate_streaming_data cfg tracks n start regions r).1,
      0 ≤ rec.streams ∧ 0 ≤ rec.playlist_adds :=
  genDays_nonneg cfg tracks regions hcfg (fun t ht => (hpop t ht).1) n start r hr

theorem getD_mem_of_lt {α : Type} (l : List α) (i : ℕ) (d : α) (h : i < l.length) :
    l.getD i d ∈ l := by
  induction l generalizing i with
  | nil => simp at h
  | cons a t ih =>
    cases i with
    | zero => exact List.mem_cons_self _ _
    | succ m => exact List.mem_cons_of_mem _ (ih m (by simpa using h))

/-- Witness for C6 on a concrete one-day run: the single record has
non-negative streams and playlist adds. -/
theorem c6_nonneg_witness :
    0 ≤ ((generate_streaming_data cfgW [trackW] 1 739051 ["US"] rngW).1.getD 0
      default).streams ∧
    0 ≤ ((generate_streaming_data cfgW [trackW] 1 739051 ["US"] rngW).1.getD 0
      default).playlist_adds :=
  c6_nonneg cfgW [trackW] 1 739051 ["US"] rngW
    (by constructor <;> norm_num [cfgW])
    (fun k => by norm_num [rngW])
    (by intro t ht; simp only [List.mem_singleton] at ht; subst ht; norm_num [trackW])
    ((generate_streaming_data cfgW [trackW] 1 739051 ["US"] rngW).1.getD 0 default)
    (getD_mem_of_lt _ 0 default
      (by simp [generate_streaming_data, genDays_length]))

theorem calculate_streams_zero_base (cfg : Config) (pop : ℚ) (d : Date) (r : Rng) :
    (calculate_streams cfg pop d 0 r).1 = 0 := by
  simp only [calculate_streams, uniform, nprandom, Rng.advance]
  split_ifs <;> simp [pyInt]

theorem calculate_playlist_adds_zero (cfg : Config) (r : Rng) :
    (calculate_playlist_adds cfg 0 r).1 = 0 := by
  simp [calculate_playlist_adds, pyInt]

theorem genTriple_zero_pop (cfg : Config) (t : Track) (d : Date) (reg : String)
    (r : Rng) (h : t.popularity = 0) :
    (genTriple cfg t d reg r).1.streams = 0 ∧
    (genTriple cfg t d reg r).1.playlist_adds = 0 := by
  have hq : (t.popularity : ℚ) = 0 := by exact_mod_cast h
  have hbase : (t.popularity : ℚ) *
      (uniform cfg.BASE_STREAM_MULTIPLIER_MIN cfg.BASE_STREAM_MULTIPLIER_MAX r).1 = 0 := by
    rw [hq, zero_mul]
  have hs0 : (calculate_streams cfg (t.popularity : ℚ) d
      ((t.popularity : ℚ) *
        (uniform cfg.BASE_STREAM_MULTIPLIER_MIN cfg.BASE_STREAM_MULTIPLIER_MAX r).1)
      (uniform cfg.BASE_STREAM_MULTIPLIER_MIN cfg.BASE_STREAM_MULTIPLIER_MAX r).2).1 = 0 := by
    rw [hbase]
    exact calculate_streams_zero_base cfg _ d _
  refine ⟨hs0, ?_⟩
  show (calculate_playlist_adds cfg (calculate_streams cfg (t.popularity : ℚ) d
      ((t.popularity : ℚ) *
        (uniform cfg.BASE_STREAM_MULTIPLIER_MIN cfg.BASE_STREAM_MULTIPLIER_MAX r).1)
      (uniform cfg.BASE_STREAM_MULTIPLIER_MIN cfg.BASE_STREAM_MULTIPLIER_MAX r).2).1 _).1 = 0
  rw [hs0]
  exact calculate_playlist_adds_zero cfg _

theorem genRegions_zero_pop (cfg : Config) (t : Track) (d : Date) :
    ∀ (regions : List String) (r : Rng),
      ∀ rec ∈ (genRegions cfg t d regions r).1,
        rec.popularity = 0 → rec.streams = 0 ∧ rec.playlist_adds = 0 := by
  intro regions
  induction regions with
  | nil => intro r rec hrec; simp [genRegions] at hrec
  | cons a rest ih =>
    intro r rec hrec hp
    simp only [genRegions, List.mem_cons] at hrec
    rcases hrec with h | h
    · subst h
      exact genTriple_zero_pop cfg t d a r hp
    · exact ih (genTriple cfg t d a r).2 rec h hp

theorem genTracks_zero_pop (cfg : Config) (regions : List String) (d : Date) :
    ∀ (tracks : List Track) (r : Rng),
      ∀ rec ∈ (genTracks cfg regions d tracks r).1,
        rec.popularity = 0 → rec.streams = 0 ∧ rec.playlist_adds = 0 := by
  intro tracks
  induction tracks with
  | nil => intro r rec hrec; simp [genTracks] at hrec
  | cons t rest ih =>
    intro r rec hrec hp
    simp only [genTracks, List.mem_append] at hrec
    rcases hrec with h | h
    · exact genRegions_zero_pop cfg t d regions r rec h hp
    · exact ih (genRegions cfg t d regions r).2 rec h hp

theorem genDays_zero_pop (cfg : Config) (tracks : List Track) (regions : List String) :
    ∀ (n : ℕ) (d : Date) (r : Rng),
      ∀ rec ∈ (genDays cfg tracks regions n d r).1,
        rec.popularity = 0 → rec.streams = 0 ∧ rec.playlist_adds = 0 := by
  intro n
  induction n with
  | zero => intro d r rec hrec; simp [genDays] at hrec
  | succ m ih =>
    intro d r rec hrec hp
    simp only [genDays, List.mem_append] at hrec
    rcases hrec with h | h
    · exact genTracks_zero_pop cfg regions d tracks r rec h hp
    · exact ih (d + 1) (genTracks cfg regions d tracks r).2 rec h hp

/-- C9: with a positive playlist-adds divisor, every record generated
for a popularity-0 track has 0 streams and 0 playlist adds, on every
day and in every region, regardless of the random draws. -/
theorem c9_zero_popularity (cfg : Config) (tracks : List Track) (n : ℕ)
    (start : Date) (regions : List String) (r : Rng)
    (hd : 0 < cfg.PLAYLIST_ADDS_DIVISOR) :
    ∀ rec ∈ (generate_streaming_data cfg tracks n start regions r).1,
      rec.popularity = 0 → rec.streams = 0 ∧ rec.playlist_adds = 0 :=
  genDays_zero_pop cfg tracks regions n start r

/-- Witness for C9: the record of a concrete one-day run over the
zero-popularity track has 0 streams and 0 playlist adds. -/
theorem c9_zero_popularity_witness :
    ((generate_streaming_data cfgW [trackZ] 1 739051 ["US"] rngW).1.getD 0
      default).streams = 0 ∧
    ((generate_streaming_data cfgW [trackZ] 1 739051 ["US"] rngW).1.getD 0
      default).playlist_adds = 0 :=
  c9_zero_popularity cfgW [trackZ] 1 739051 ["US"] rngW (by norm_num [cfgW])
    ((generate_streaming_data cfgW [trackZ] 1 739051 ["US"] rngW).1.getD 0 default)
    (getD_mem_of_lt _ 0 default
      (by simp [generate_streaming_data, genDays_length]))
    (by rfl)

/-- C8: construction of a `SimulationConfig` succeeds iff the
invariants hold (horizon ≥ 1, regions non-empty, every multiplier
range with min ≤ max); a violation is rejected with `ConfigError`
before any per-iteration work, and with a valid configuration the
simulator is total: it always yields the full contracted record
sequence.  (`SimulationConfig` is modelled from the spec, the repo's
`config` module not being under `src/`.) -/
theorem c8_config_validation (h : ℕ) (s : Date) (regs : List String) (p : Config) :
    ((∃ c, mkSimulationConfig h s regs p = Except.ok c) ↔
      (1 ≤ h ∧ regs ≠ [] ∧
       p.BASE_STREAM_MULTIPLIER_MIN ≤ p.BASE_STREAM_MULTIPLIER_MAX ∧
       p.WEEKEND_BOOST_MIN ≤ p.WEEKEND_BOOST_MAX ∧
       p.VIRAL_SPIKE_MULTIPLIER_MIN ≤ p.VIRAL_SPIKE_MULTIPLIER_MAX)) ∧
    (∀ c, mkSimulationConfig h s regs p = Except.ok c →
      ∀ (tracks : List Track) (r : Rng),
        (generate_streaming_data p tracks c.horizon_days c.start_date c.regions r).1.length
          = c.horizon_days * tracks.length * c.regions.length) := by
  constructor
  · constructor
    · rintro ⟨c, hc⟩
      unfold mkSimulationConfig at hc
      split_ifs at hc with h1 h2 h3 h4 h5
      all_goals try (simp at hc)
      exact ⟨by omega, fun he => h2 (by simp [he]),
        le_of_not_lt h3, le_of_not_lt h4, le_of_not_lt h5⟩
    · rintro ⟨hh, hregs, hb, hw, hv⟩
      refine ⟨⟨h, s, regs, p⟩, ?_⟩
      unfold mkSimulationConfig
      rw [if_neg (by omega), if_neg (by simpa [List.isEmpty_iff] using hregs),
        if_neg (not_lt.mpr hb), if_neg (not_lt.mpr hw), if_neg (not_lt.mpr hv)]
  · intro c hc tracks r
    unfold mkSimulationConfig at hc
    split_ifs at hc
    all_goals try (simp at hc)
    obtain rfl : SimulationConfig.mk h s regs p = c := hc
    simp [generate_streaming_data, genDays_length, Nat.mul_assoc]

/-- Witness for C8: a concrete valid configuration is accepted and the
simulator yields the contracted record count. -/
theorem c8_config_validation_witness :
    (generate_streaming_data cfgW [trackW]
        (SimulationConfig.mk 3 738886 ["US"] cfgW).horizon_days
        (SimulationConfig.mk 3 738886 ["US"] cfgW).start_date
        (SimulationConfig.mk 3 738886 ["US"] cfgW).regions rngW).1.length
      = (SimulationConfig.mk 3 738886 ["US"] cfgW).horizon_days * [trackW].length
          * (SimulationConfig.mk 3 738886 ["US"] cfgW).regions.length :=
  (c8_config_validation 3 738886 ["US"] cfgW).2 ⟨3, 738886, ["US"], cfgW⟩
    (by
      unfold mkSimulationConfig
      rw [if_neg (by omega), if_neg (by simp), if_neg (by norm_num [cfgW]),
        if_neg (by norm_num [cfgW]), if_neg (by norm_num [cfgW])])
    [trackW] rngW
